import Mathlib

/-!
Shallow embedding of the Inmobiscrap scraping pipeline, translated from
`scraping/tasks.py` (PropertyExtractor._extract_from_container,
smart_html_extraction, hybrid_extraction, determine_property_type,
clean_property_data, create_or_update_property, scrape_url_task) and
`scraping/models.py` (URLToScrape.mark_as_scraped), together with
theorems settling claims C1-C10.

Modelling conventions:
- Python strings are `List Char`; Python float values are exact
  rationals `ℚ` (every price/area the claims mention is a value on
  which Python float arithmetic is exact).
- Python dict values are the `PyVal` type; a missing key is `.absent`.
- HTML/DOM access (BeautifulSoup) is abstracted: functions of it that
  the claims do not inspect are taken as parameters.
- The md5-hexdigest used for derived property codes is abstracted as a
  function parameter `h : List Char → List Char`; only its determinism
  matters to the claims.
-/

namespace Inmobiscrap

/-- Whitespace as matched by Python's regex class and by `str.strip`
(ASCII range). -/
def isSpaceCh (c : Char) : Bool :=
  c == ' ' || c == '\t' || c == '\n' || c == '\r' || c == '\x0b' || c == '\x0c'

/-- Characters of the regex class used by the price patterns. -/
def isNumCh (c : Char) : Bool :=
  c.isDigit || c == '.' || c == ','

/-- Python `str.lower` (ASCII case folding). -/
def pyLower (s : List Char) : List Char := s.map Char.toLower

/-- Python `str.strip` with no argument: drop leading and trailing
whitespace. -/
def pyStrip (s : List Char) : List Char :=
  ((s.dropWhile isSpaceCh).reverse.dropWhile isSpaceCh).reverse

/-- `isPre p l` holds when `p` is a leading segment of `l`. -/
def isPre : List Char → List Char → Bool
  | [], _ => true
  | _ :: _, [] => false
  | a :: as, b :: bs => a == b && isPre as bs

/-- Python substring test `needle in hay`. -/
def pyIn (needle : List Char) : List Char → Bool
  | [] => isPre needle []
  | c :: t => isPre needle (c :: t) || pyIn needle t

/-- Split a character list at every dot. -/
def splitDot : List Char → List (List Char)
  | [] => [[]]
  | c :: t =>
    match splitDot t with
    | [] => [[c]]
    | h :: r => if c == '.' then [] :: h :: r else (c :: h) :: r

/-- Read a digit string as a natural number; fails on any non-digit. -/
def digitsToNat : List Char → Option ℕ
  | [] => some 0
  | c :: t =>
    if c.isDigit then
      (digitsToNat t).map (fun n => (c.toNat - 48) * 10 ^ t.length + n)
    else none

/-- Python `float(s)` restricted to the digit-and-dot strings the price
code can produce: `"123"`, `"123.45"`, `".5"`, `"5."` parse, while
`""`, `"."`, `"1.2.3"` and anything with other characters fail. -/
def parseVal (s : List Char) : Option ℚ :=
  match splitDot s with
  | [ip] =>
    if ip.isEmpty then none else (digitsToNat ip).map (fun n => (n : ℚ))
  | [ip, fp] =>
    if ip.isEmpty && fp.isEmpty then none
    else
      match digitsToNat ip, digitsToNat fp with
      | some a, some b => some ((a : ℚ) + (b : ℚ) / (10 : ℚ) ^ fp.length)
      | _, _ => none
  | _ => none

/-- `value_str = match.group(1).replace('.', '').replace(',', '.')`. -/
def normNum (s : List Char) : List Char :=
  (s.filter (fun c => c != '.')).map (fun c => if c == ',' then '.' else c)

/-- Recognise the optional `(?:\s*millones?)?` suffix (case-insensitive);
returns how many characters it consumes. -/
def matchMillones (s : List Char) : Option ℕ :=
  if (s.take 7).map Char.toLower == "millone".toList then
    match s.drop 7 with
    | c :: _ => if c.toLower == 's' then some 8 else some 7
    | [] => some 7
  else none

/-- Match `\$\s*([\d.,]+)(?:\s*millones?)?` anchored at the start of `s`;
returns `(group0, group1)` on success. -/
def matchDollarAt (s : List Char) : Option (List Char × List Char) :=
  match s with
  | '$' :: rest =>
    let ws := rest.takeWhile isSpaceCh
    let r1 := rest.dropWhile isSpaceCh
    let g1 := r1.takeWhile isNumCh
    if g1.isEmpty then none
    else
      let r2 := r1.dropWhile isNumCh
      let ws2 := r2.takeWhile isSpaceCh
      let r3 := r2.dropWhile isSpaceCh
      match matchMillones r3 with
      | some n => some ( '$' :: (ws ++ g1 ++ ws2 ++ r3.take n), g1)
      | none => some ( '$' :: (ws ++ g1), g1)
  | _ => none

/-- `re.search` for the first price pattern: leftmost position at which
`matchDollarAt` succeeds. -/
def searchDollar : List Char → Option (List Char × List Char)
  | [] => none
  | c :: t =>
    match matchDollarAt (c :: t) with
    | some r => some r
    | none => searchDollar t

/-- Match `\$\s*([\d.,]+)` (fourth pattern) anchored at the start. -/
def matchDollarPlainAt (s : List Char) : Option (List Char × List Char) :=
  match s with
  | '$' :: rest =>
    let ws := rest.takeWhile isSpaceCh
    let r1 := rest.dropWhile isSpaceCh
    let g1 := r1.takeWhile isNumCh
    if g1.isEmpty then none else some ( '$' :: (ws ++ g1), g1)
  | _ => none

/-- `re.search` for the fourth price pattern. -/
def searchDollarPlain : List Char → Option (List Char × List Char)
  | [] => none
  | c :: t =>
    match matchDollarPlainAt (c :: t) with
    | some r => some r
    | none => searchDollarPlain t

/-- Match `UF\s*([\d.,]+)` (case-insensitive) anchored at the start. -/
def matchUFAt (s : List Char) : Option (List Char) :=
  match s with
  | a :: b :: rest =>
    if a.toLower == 'u' && b.toLower == 'f' then
      let r1 := rest.dropWhile isSpaceCh
      let g1 := r1.takeWhile isNumCh
      if g1.isEmpty then none else some g1
    else none
  | _ => none

/-- `re.search` for the second price pattern. -/
def searchUF : List Char → Option (List Char)
  | [] => none
  | c :: t =>
    match matchUFAt (c :: t) with
    | some r => some r
    | none => searchUF t

/-- Match `([\d.,]+)\s*(?:UF)` (case-insensitive) anchored at the start:
a maximal run of number characters followed by whitespace and `UF`. -/
def matchNumUFAt (s : List Char) : Option (List Char) :=
  let g1 := s.takeWhile isNumCh
  if g1.isEmpty then none
  else
    match (s.dropWhile isNumCh).dropWhile isSpaceCh with
    | a :: b :: _ => if a.toLower == 'u' && b.toLower == 'f' then some g1 else none
    | _ => none

/-- `re.search` for the third price pattern. -/
def searchNumUF : List Char → Option (List Char)
  | [] => none
  | c :: t =>
    match matchNumUFAt (c :: t) with
    | some r => some r
    | none => searchNumUF t

/-- The word checked by `'millones' in match.group(0).lower()`. -/
def milChars : List Char := "millones".toList

/-- Outcome of the price-extraction loop: the `precio` and `precio_uf`
entries of the container dict (initialised to `0` and `None`). -/
structure PriceResult where
  precio : ℚ
  precio_uf : Option ℚ
deriving DecidableEq

/-- First loop iteration: pattern `\$\s*([\d.,]+)(?:\s*millones?)?` with
`multiplier = 1000000`. The source sets `value * multiplier` when the
matched text contains `millones` and `value * (multiplier or 1)`
otherwise — and since `multiplier` is the truthy 1000000, the else
branch multiplies by 1000000 as well. `none` means the loop falls
through (no match, or `float` raised). -/
def step1 (text : List Char) : Option PriceResult :=
  match searchDollar text with
  | some (g0, g1) =>
    match parseVal (normNum g1) with
    | some v =>
      some ⟨if pyIn milChars (pyLower g0) then v * 1000000 else v * 1000000,
        Option.none⟩
    | none => none
  | none => none

/-- Second loop iteration: pattern `UF\s*([\d.,]+)`; sets `precio_uf`
and converts to pesos at the fixed rate 37000. -/
def step2 (text : List Char) : Option PriceResult :=
  match searchUF text with
  | some g1 => (parseVal (normNum g1)).map (fun v => ⟨v * 37000, some v⟩)
  | none => none

/-- Third loop iteration: pattern `([\d.,]+)\s*(?:UF)`. -/
def step3 (text : List Char) : Option PriceResult :=
  match searchNumUF text with
  | some g1 => (parseVal (normNum g1)).map (fun v => ⟨v * 37000, some v⟩)
  | none => none

/-- Fourth loop iteration: pattern `\$\s*([\d.,]+)` with multiplier 1. -/
def step4 (text : List Char) : Option PriceResult :=
  match searchDollarPlain text with
  | some (_, g1) => (parseVal (normNum g1)).map (fun v => ⟨v * 1, Option.none⟩)
  | none => none

/-- The price-extraction loop of `_extract_from_container`: the four
patterns are tried in order, the first successful match-and-parse wins,
and on total failure the dict keeps `precio = 0`, `precio_uf = None`. -/
def extractPrice (text : List Char) : PriceResult :=
  match step1 text with
  | some r => r
  | none =>
    match step2 text with
    | some r => r
    | none =>
      match step3 text with
      | some r => r
      | none =>
        match step4 text with
        | some r => r
        | none => ⟨0, Option.none⟩

/-- The four property categories returned (as strings) by
`determine_property_type`. -/
inductive PropType where
  | terreno
  | departamento
  | casa_prefabricada
  | casa
deriving DecidableEq

/-- Land keywords. -/
def terrenoKws : List (List Char) :=
  ["terreno".toList, "lote".toList, "sitio".toList, "parcela".toList, "predio".toList]

/-- Apartment keywords. -/
def deptoKws : List (List Char) :=
  ["departamento".toList, "depto".toList, "apartamento".toList, "flat".toList,
   "pent-house".toList, "penthouse".toList]

/-- Prefabricated-house keywords. -/
def prefabKws : List (List Char) :=
  ["prefabricada".toList, "modular".toList, "container".toList, "móvil".toList,
   "tiny house".toList]

/-- House keywords. -/
def casaKws : List (List Char) :=
  ["casa".toList, "chalet".toList, "villa".toList, "cabaña".toList]

/-- `any(word in text for word in kws)`. -/
def kwHit (kws : List (List Char)) (text : List Char) : Bool :=
  kws.any (fun w => pyIn w text)

/-- `text = titulo.lower() + ' ' + descripcion.lower()`. -/
def classText (titulo descripcion : List Char) : List Char :=
  pyLower titulo ++ ' ' :: pyLower descripcion

/-- `determine_property_type`: ordered keyword groups, then the
area-based fallback. -/
def determine_property_type (titulo descripcion : List Char) (metros : ℚ) : PropType :=
  let text := classText titulo descripcion
  if kwHit terrenoKws text then .terreno
  else if kwHit deptoKws text then .departamento
  else if kwHit prefabKws text then .casa_prefabricada
  else if kwHit casaKws text then .casa
  else if 500 < metros then .terreno
  else if metros < 80 then .departamento
  else .casa

/-- A Python dict value: a string, a number (int and float conflated as
an exact rational), `None`, a list (of strings, which is what the
list-valued fields hold), or a missing key. -/
inductive PyVal where
  | str (s : List Char)
  | num (q : ℚ)
  | noneV
  | list (l : List (List Char))
  | absent
deriving DecidableEq

/-- Python truthiness of a `PyVal` (a missing key is only ever produced
by `.get` with a falsy default, so `.absent` is falsy). -/
def pyTruthy : PyVal → Bool
  | .str s => !s.isEmpty
  | .num q => !(decide (q = 0))
  | .noneV => false
  | .list l => !l.isEmpty
  | .absent => false

/-- String content of a value that the code reads as a string (after
cleaning the relevant fields are always strings). -/
def strOf : PyVal → List Char
  | .str s => s
  | _ => []

/-- Numeric content of a value that the code reads as a number. -/
def pyNum : PyVal → ℚ
  | .num q => q
  | _ => 0

/-- A deterministic stand-in for Python's textual rendering of a
number inside an f-string; only its determinism and letter-freeness
are ever used. -/
def numRepr (q : ℚ) : List Char :=
  (toString q.num).toList ++ '/' :: (toString q.den).toList

/-- Python `str` of a list of strings: `['a', 'b']`; each element is
shown with single quotes (`repr`'s quote-switching for embedded quotes
is elided). -/
def strListRepr (l : List (List Char)) : List Char :=
  '[' :: (((l.map (fun s => Char.ofNat 39 :: (s ++ [Char.ofNat 39]))).intersperse
    (", ".toList)).flatten ++ [']'])

/-- Python `str(x)` as applied to dict values. -/
def pyStr : PyVal → List Char
  | .str s => s
  | .num q => numRepr q
  | .noneV => "None".toList
  | .list l => strListRepr l
  | .absent => []

/-- Python `int(x)` on a float, truncation toward zero. -/
def pyTrunc (q : ℚ) : ℤ := Int.tdiv q.num (q.den : ℤ)

/-- The raw/cleaned property dict: every key `clean_property_data`
reads or writes. A raw record may have any shapes; the cleaner
produces the canonical shapes. -/
structure Rec where
  titulo : PyVal := .absent
  descripcion : PyVal := .absent
  precio : PyVal := .absent
  precio_uf : PyVal := .absent
  metros_cuadrados : PyVal := .absent
  metros_terreno : PyVal := .absent
  dormitorios : PyVal := .absent
  banos : PyVal := .absent
  estacionamientos : PyVal := .absent
  direccion : PyVal := .absent
  comuna : PyVal := .absent
  ciudad : PyVal := .absent
  region : PyVal := .absent
  codigo_propiedad : PyVal := .absent
  nombre_contacto : PyVal := .absent
  telefono_contacto : PyVal := .absent
  email_contacto : PyVal := .absent
  inmobiliaria : PyVal := .absent
  url_propiedad : PyVal := .absent
  tipo_operacion : PyVal := .absent
  amenidades : PyVal := .absent
  imagenes_urls : PyVal := .absent
  ano_construccion : PyVal := .absent
  piso : PyVal := .absent
  gastos_comunes : PyVal := .absent
  contribuciones : PyVal := .absent
deriving DecidableEq

/-- `'Sin título'`. -/
def sinTituloChars : List Char := "Sin título".toList

/-- `'Santiago'`. -/
def santiagoChars : List Char := "Santiago".toList

/-- `'Metropolitana'`. -/
def metropolitanaChars : List Char := "Metropolitana".toList

/-- `'arriendo'`. -/
def arriendoChars : List Char := "arriendo".toList

/-- `'alquiler'`. -/
def alquilerChars : List Char := "alquiler".toList

/-- `'rent'`. -/
def rentChars : List Char := "rent".toList

/-- `'venta'`. -/
def ventaChars : List Char := "venta".toList

/-- `cleaned['titulo'] = titulo.strip()[:500] or 'Sin título'` for a
string, `'Sin título'` otherwise. -/
def cleanTitulo (v : PyVal) : PyVal :=
  match v with
  | .str s =>
    let t := (pyStrip s).take 500
    .str (if t.isEmpty then sinTituloChars else t)
  | _ => .str sinTituloChars

/-- `cleaned['descripcion'] = descripcion.strip()[:1000]` for a string,
`''` otherwise. -/
def cleanDescripcion (v : PyVal) : PyVal :=
  match v with
  | .str s => .str ((pyStrip s).take 1000)
  | _ => .str []

/-- `precio`: for strings strip every non-digit then `float(...) if
truthy else 0`; for numbers `float(x) if x else 0`; any failure or
falsy value gives `0`. -/
def cleanPrecio (v : PyVal) : PyVal :=
  match v with
  | .str s =>
    let d := s.filter Char.isDigit
    .num (if d.isEmpty then 0 else ((digitsToNat d).getD 0 : ℚ))
  | .num q => .num q
  | _ => .num 0

/-- `precio_uf`: falsy input gives `None`; strings keep digits and
dots then `float(...)`, with parse failure giving `None`; a nonzero
number passes through; a nonempty list raises, caught to `None`. -/
def cleanPrecioUf (v : PyVal) : PyVal :=
  match v with
  | .str s =>
    if s.isEmpty then .noneV
    else
      match parseVal (s.filter (fun c => c.isDigit || c == '.')) with
      | some q => .num q
      | none => .noneV
  | .num q => if q = 0 then .noneV else .num q
  | _ => .noneV

/-- A count field (`metros_cuadrados`, `dormitorios`, ...): strings are
stripped to digits then `int(float(...)) if truthy else 0`; numbers go
through `int(float(x)) if x else 0`; everything else gives the default
`0`. -/
def cleanNumF (v : PyVal) : PyVal :=
  match v with
  | .str s =>
    let d := s.filter Char.isDigit
    .num (if d.isEmpty then 0 else ((digitsToNat d).getD 0 : ℚ))
  | .num q => .num (if q = 0 then 0 else ((pyTrunc q : ℤ) : ℚ))
  | _ => .num 0

/-- A plain text field: `value.strip()[:500]` for strings, `''`
otherwise. -/
def cleanText (v : PyVal) : PyVal :=
  match v with
  | .str s => .str ((pyStrip s).take 500)
  | _ => .str []

/-- A text field with a post-loop default (`ciudad`/`region`). -/
def cleanTextD (dflt : List Char) (v : PyVal) : PyVal :=
  match cleanText v with
  | .str s => .str (if s.isEmpty then dflt else s)
  | w => w

/-- `tipo_operacion`: lower-case the stringified value (default
`'venta'`) and look for lease keywords. -/
def cleanTipoOp (v : PyVal) : PyVal :=
  let s0 := match v with | .absent => ventaChars | w => pyStr w
  let s := pyLower s0
  if pyIn arriendoChars s || pyIn alquilerChars s || pyIn rentChars s then
    .str arriendoChars
  else .str ventaChars

/-- A list field (`amenidades`/`imagenes_urls`): pass through only
list-shaped values, else `[]`. -/
def cleanList (v : PyVal) : PyVal :=
  match v with
  | .list l => .list l
  | _ => .list []

/-- A passthrough field assigned via `data.get(key)`: missing keys
become `None`. -/
def getOrNone (v : PyVal) : PyVal :=
  match v with
  | .absent => .noneV
  | w => w

/-- `clean_property_data`, field by field. -/
def clean (d : Rec) : Rec where
  titulo := cleanTitulo d.titulo
  descripcion := cleanDescripcion d.descripcion
  precio := cleanPrecio d.precio
  precio_uf := cleanPrecioUf d.precio_uf
  metros_cuadrados := cleanNumF d.metros_cuadrados
  metros_terreno := cleanNumF d.metros_terreno
  dormitorios := cleanNumF d.dormitorios
  banos := cleanNumF d.banos
  estacionamientos := cleanNumF d.estacionamientos
  direccion := cleanText d.direccion
  comuna := cleanText d.comuna
  ciudad := cleanTextD santiagoChars d.ciudad
  region := cleanTextD metropolitanaChars d.region
  codigo_propiedad := cleanText d.codigo_propiedad
  nombre_contacto := cleanText d.nombre_contacto
  telefono_contacto := cleanText d.telefono_contacto
  email_contacto := cleanText d.email_contacto
  inmobiliaria := cleanText d.inmobiliaria
  url_propiedad := cleanText d.url_propiedad
  tipo_operacion := cleanTipoOp d.tipo_operacion
  amenidades := cleanList d.amenidades
  imagenes_urls := cleanList d.imagenes_urls
  ano_construccion := getOrNone d.ano_construccion
  piso := getOrNone d.piso
  gastos_comunes := getOrNone d.gastos_comunes
  contribuciones := getOrNone d.contribuciones

/-- `stripStable v` says a string value is unchanged by one more
`strip` (trivially true for non-strings). -/
def stripStable : PyVal → Bool
  | .str s => decide (pyStrip s = s)
  | _ => true

/-- The hypotheses under which cleaning is idempotent on a cleaned
record: every trimmed-and-capped text field ends at a non-whitespace
boundary, and `precio_uf` did not clean to exactly `0`. -/
def recStable (c : Rec) : Bool :=
  stripStable c.titulo && stripStable c.descripcion && stripStable c.direccion &&
  stripStable c.comuna && stripStable c.ciudad && stripStable c.region &&
  stripStable c.codigo_propiedad && stripStable c.nombre_contacto &&
  stripStable c.telefono_contacto && stripStable c.email_contacto &&
  stripStable c.inmobiliaria && stripStable c.url_propiedad &&
  !(decide (c.precio_uf = PyVal.num 0))

/-- `p.get('titulo', '').lower().strip()`, the normalised title used by
the hybrid merge. -/
def normTitle (p : Rec) : List Char := pyStrip (pyLower (strOf p.titulo))

/-- Merge state: `(all_properties, existing_titles, existing_prices)`
(the Python sets are modelled as lists queried by membership). -/
abbrev MergeSt := List Rec × List (List Char) × List ℚ

/-- The title-similarity duplicate test of the merge loop: guarded by
`if prop_title:` outside and `if title and prop_title and (...)`
inside the iteration over the known titles. -/
def dupA (titles : List (List Char)) (t : List Char) : Bool :=
  !t.isEmpty && titles.any (fun u => !u.isEmpty && !t.isEmpty &&
    (pyIn u t || pyIn t u || decide (u.take 30 = t.take 30)))

/-- The price duplicate test: `prop_price in existing_prices and
prop_price > 0`. -/
def dupB (prices : List ℚ) (pr : ℚ) : Bool :=
  prices.any (fun x => decide (x = pr)) && decide (0 < pr)

/-- One iteration of the duplicate-avoiding loop in
`hybrid_extraction`, translated from the source (`is_duplicate` is
set by the title test, then possibly by the price test under
`not is_duplicate and ...`). -/
def mergeStep (st : MergeSt) (p : Rec) : MergeSt :=
  if dupA st.2.1 (normTitle p) ||
      (!dupA st.2.1 (normTitle p) && dupB st.2.2 (pyNum p.precio)) then st
  else (st.1 ++ [p], normTitle p :: st.2.1, pyNum p.precio :: st.2.2)

/-- The merge phase of `hybrid_extraction`: start from the LLM records,
then fold the heuristic (BeautifulSoup) records through the
duplicate filter. -/
def hybridMergeRecords (llm bs : List Rec) : List Rec :=
  (bs.foldl mergeStep (llm, llm.map normTitle, llm.map (fun p => pyNum p.precio))).1

/-- The duplicate condition exactly as claim C5 words it: the
normalized title is a substring of, contains, or shares a 30-character
prefix with some kept title, or the exact price is positive and
already present. (No non-emptiness requirement on titles.) -/
def dupOrig (titles : List (List Char)) (prices : List ℚ)
    (t : List Char) (pr : ℚ) : Prop :=
  (∃ u ∈ titles, pyIn t u = true ∨ pyIn u t = true ∨ u.take 30 = t.take 30) ∨
  (0 < pr ∧ pr ∈ prices)

instance (titles : List (List Char)) (prices : List ℚ) (t : List Char) (pr : ℚ) :
    Decidable (dupOrig titles prices t pr) := by
  unfold dupOrig; infer_instance

/-- The duplicate condition as amended: clause (a) applies only when
both compared normalized titles are non-empty. -/
def dupAmend (titles : List (List Char)) (prices : List ℚ)
    (t : List Char) (pr : ℚ) : Prop :=
  (t ≠ [] ∧ ∃ u ∈ titles, u ≠ [] ∧
    (pyIn t u = true ∨ pyIn u t = true ∨ u.take 30 = t.take 30)) ∨
  (0 < pr ∧ pr ∈ prices)

instance (titles : List (List Char)) (prices : List ℚ) (t : List Char) (pr : ℚ) :
    Decidable (dupAmend titles prices t pr) := by
  unfold dupAmend; infer_instance

/-- One merge step following the original claim wording. -/
def specStepOrig (st : MergeSt) (p : Rec) : MergeSt :=
  if dupOrig st.2.1 st.2.2 (normTitle p) (pyNum p.precio) then st
  else (st.1 ++ [p], normTitle p :: st.2.1, pyNum p.precio :: st.2.2)

/-- The merge as claim C5 states it. -/
def mergeSpecOrig (llm bs : List Rec) : List Rec :=
  (bs.foldl specStepOrig (llm, llm.map normTitle, llm.map (fun p => pyNum p.precio))).1

/-- One merge step following the amended claim wording. -/
def specStepAmend (st : MergeSt) (p : Rec) : MergeSt :=
  if dupAmend st.2.1 st.2.2 (normTitle p) (pyNum p.precio) then st
  else (st.1 ++ [p], normTitle p :: st.2.1, pyNum p.precio :: st.2.2)

/-- The merge as the amended claim states it. -/
def mergeSpecAmend (llm bs : List Rec) : List Rec :=
  (bs.foldl specStepAmend (llm, llm.map normTitle, llm.map (fun p => pyNum p.precio))).1

/-- `URLToScrape.status` values. -/
inductive SStatus where
  | pending
  | in_progress
  | completed
  | failed
  | disabled
deriving DecidableEq

/-- The statistics part of `URLToScrape` that `mark_as_scraped`
mutates (timestamps are elided: no claim mentions them). -/
structure SourceState where
  status : SStatus := .pending
  total_scrapes : ℕ := 0
  successful_scrapes : ℕ := 0
  failed_scrapes : ℕ := 0
  last_error_message : Option (List Char) := Option.none
deriving DecidableEq

/-- `URLToScrape.mark_as_scraped`. -/
def mark_as_scraped (success : Bool) (err : Option (List Char))
    (s : SourceState) : SourceState :=
  let s1 := { s with total_scrapes := s.total_scrapes + 1 }
  if success then
    { s1 with successful_scrapes := s1.successful_scrapes + 1,
              status := .completed, last_error_message := Option.none }
  else
    { s1 with failed_scrapes := s1.failed_scrapes + 1,
              status := .failed, last_error_message := err }

/-- `@shared_task(bind=True, max_retries=3)`. -/
def maxRetries : ℕ := 3

/-- What an always-failing run produces: the countdowns passed to
`self.retry`, how many times the task body executed, and the final
source state. -/
structure FailRunResult where
  delays : List ℕ
  attempts : ℕ
  source : SourceState
deriving DecidableEq

/-- The failure path of `scrape_url_task` when every attempt raises:
each execution calls `mark_as_scraped(success=False)` and then retries
with countdown `60 * (retries + 1)` while `retries < max_retries`.
The fuel argument only makes the recursion structural; it is chosen
large enough (`maxRetries + 1 - retries` executions happen). -/
def failLoop (err : List Char) : ℕ → ℕ → SourceState → FailRunResult
  | 0, _, s => ⟨[], 0, s⟩
  | fuel + 1, retries, s =>
    let s2 := mark_as_scraped false (some err) s
    if retries < maxRetries then
      let r := failLoop err fuel (retries + 1) s2
      ⟨60 * (retries + 1) :: r.delays, r.attempts + 1, r.source⟩
    else ⟨[], 1, s2⟩

/-- A whole always-failing run of `scrape_url_task`, starting from the
initial dispatch (`retries = 0`). -/
def scrapeTaskAllFail (err : List Char) (s : SourceState) : FailRunResult :=
  failLoop err (maxRetries + 1) 0 s

/-- A source with zeroed counters. -/
def srcZero : SourceState := {}

/-- Upsert key: `(category table, codigo_propiedad, sitio_origen)`. -/
abbrev TKey := PropType × List Char × List Char

/-- A stored row: the cleaned payload written through `defaults`
(with the image list capped at 10), plus the two key columns. The
category-specific default columns do not affect any claim and are not
repeated here. -/
structure Row where
  data : Rec
  codigo : List Char
  sitio : List Char
deriving DecidableEq

/-- A category-partitioned property store, as an association list. -/
abbrev Tables := List (TKey × Row)

/-- Key lookup. -/
def lookupTbl (k : TKey) : Tables → Option Row
  | [] => Option.none
  | (k2, r) :: t => if k2 = k then some r else lookupTbl k t

/-- Overwrite the row stored at `k` (the `defaults=` part of
`update_or_create`: a full overwrite, not a patch). -/
def replaceTbl (k : TKey) (r : Row) : Tables → Tables
  | [] => []
  | (a, b) :: t => (if a = k then (k, r) else (a, b)) :: replaceTbl k r t

/-- `update_or_create`: returns the created flag and the new store. -/
def upsert (k : TKey) (r : Row) (t : Tables) : Bool × Tables :=
  match lookupTbl k t with
  | some _ => (false, replaceTbl k r t)
  | Option.none => (true, (k, r) :: t)

/-- `key k t` holds when the store already has a row at `k`. -/
def keyPresent (k : TKey) (t : Tables) : Prop :=
  (lookupTbl k t).isSome = true

instance (k : TKey) (t : Tables) : Decidable (keyPresent k t) := by
  unfold keyPresent; infer_instance

/-- `imagenes_urls[:10]` as written into `common_data`. -/
def capImages (v : PyVal) : PyVal :=
  match v with
  | .list l => .list (l.take 10)
  | w => w

/-- The identity code: the explicit `codigo_propiedad` when truthy,
else the first 10 characters of the digest of
`f"{titulo}{precio}{comuna}"`; `h` abstracts md5-hexdigest. -/
def codigoOf (h : List Char → List Char) (c : Rec) : List Char :=
  if pyTruthy c.codigo_propiedad then strOf c.codigo_propiedad
  else (h (strOf c.titulo ++ numRepr (pyNum c.precio) ++ strOf c.comuna)).take 10

/-- `create_or_update_property`: clean again, apply the minimal
validation gate, derive the code, and upsert into the category table
keyed by `(codigo_propiedad, sitio_origen)`. -/
def create_or_update_property (h : List Char → List Char) (site : List Char)
    (pt : PropType) (d : Rec) (tbl : Tables) : (Option Row × Bool) × Tables :=
  let c := clean d
  if decide (pyNum c.precio ≤ 0) && !pyTruthy c.titulo then
    ((Option.none, false), tbl)
  else
    let codigo := codigoOf h c
    let row : Row := ⟨{ c with imagenes_urls := capImages c.imagenes_urls }, codigo, site⟩
    let u := upsert (pt, codigo, site) row tbl
    ((some row, u.1), u.2)

/-- Counters of one run. -/
structure RunCounts where
  created : ℕ := 0
  updated : ℕ := 0
  failed : ℕ := 0
deriving DecidableEq

/-- One iteration of the per-record loop in `scrape_url_task`: clean,
check minimal data, classify, then create-or-update. -/
def processRec (h : List Char → List Char) (site : List Char)
    (st : RunCounts × Tables) (r : Rec) : RunCounts × Tables :=
  let cnt := st.1
  let tbl := st.2
  let c := clean r
  if !pyTruthy c.titulo && decide (pyNum c.precio ≤ 0) then
    ({ cnt with failed := cnt.failed + 1 }, tbl)
  else
    let pt := determine_property_type (strOf c.titulo) (strOf c.descripcion)
      (pyNum c.metros_cuadrados)
    let res := create_or_update_property h site pt c tbl
    match res.1.1 with
    | some _ =>
      if res.1.2 then ({ cnt with created := cnt.created + 1 }, res.2)
      else ({ cnt with updated := cnt.updated + 1 }, res.2)
    | Option.none => ({ cnt with failed := cnt.failed + 1 }, res.2)

/-- The per-record processing loop of `scrape_url_task` over the
candidate records, threading the property store. -/
def scrapeRun (h : List Char → List Char) (site : List Char)
    (recs : List Rec) (t : Tables) : RunCounts × Tables :=
  recs.foldl (processRec h site) ({}, t)

/-- The key under which `processRec` stores a record: the category is
determined from the once-cleaned record, the code from the
twice-cleaned one (`create_or_update_property` cleans again). -/
def recKey (h : List Char → List Char) (site : List Char) (r : Rec) : TKey :=
  let c := clean r
  (determine_property_type (strOf c.titulo) (strOf c.descripcion)
    (pyNum c.metros_cuadrados), codigoOf h (clean c), site)

/-- The row `processRec` stores for a record. -/
def recRow (h : List Char → List Char) (site : List Char) (r : Rec) : Row :=
  let c2 := clean (clean r)
  ⟨{ c2 with imagenes_urls := capImages c2.imagenes_urls }, codigoOf h c2, site⟩

/-- Abstract per-record persistence outcome, covering the paths the
store-free counter model needs: a successful store (created or
updated), `create_or_update_property` returning no object, or an
exception caught by the loop's handler. -/
inductive RecOutcome where
  | stored (created : Bool)
  | storeFail
  | raised
deriving DecidableEq

/-- The counter discipline of the per-record loop, with persistence
outcomes supplied by an oracle (modelling database results and
exceptions): each iteration bumps exactly one counter. -/
def counterStep (cnt : RunCounts) (x : Rec × RecOutcome) : RunCounts :=
  match x.2 with
  | .raised => { cnt with failed := cnt.failed + 1 }
  | o =>
    let c := clean x.1
    if !pyTruthy c.titulo && decide (pyNum c.precio ≤ 0) then
      { cnt with failed := cnt.failed + 1 }
    else
      match o with
      | .stored true => { cnt with created := cnt.created + 1 }
      | .stored false => { cnt with updated := cnt.updated + 1 }
      | _ => { cnt with failed := cnt.failed + 1 }

/-- The whole counting loop under an outcome oracle. -/
def scrapeCounters (xs : List (Rec × RecOutcome)) : RunCounts :=
  xs.foldl counterStep {}

/-- `smart_html_extraction`: the DOM work (noise stripping, container
choice, structured text rendering) is abstracted as the functions
`render` (for `str(main_container)`) and `summarize` (for the tagged
text block built when the markup exceeds the budget); the returned
value is always sliced to `max_chars` (default 30000 in the source). -/
def smart_html_extraction (render summarize : List Char → List Char)
    (html : List Char) (maxChars : ℕ) : List Char :=
  let relevant := render html
  let reduced := if maxChars < relevant.length then summarize html else relevant
  reduced.take maxChars

/-- The raw record claim C3 is about: empty title and zero price. -/
def rawNoTitleNoPrice : Rec := { titulo := .str [], precio := .num 0 }

/-- The raw record refuting C10: `precio_uf` is the string `"0"`. -/
def rawUfZero : Rec := { precio_uf := .str ("0".toList) }

/-- The empty raw record (every key missing). -/
def rawEmpty : Rec := {}

/-- An LLM record for the C5 counterexample. -/
def llmRecA : Rec := { titulo := .str ("Casa bonita".toList), precio := .num 100 }

/-- A heuristic record with an empty title for the C5 counterexample. -/
def bsRecEmpty : Rec := { titulo := .str [], precio := .num 50 }

/-- The LLM record of the spec's dedup example. -/
def llmCasa : Rec :=
  { titulo := .str ("Casa 3 dormitorios Las Condes".toList), precio := .num 100000000 }

/-- The heuristic record of the spec's dedup example. -/
def bsCasa : Rec :=
  { titulo := .str ("Casa 3 dorm Las Condes".toList), precio := .num 100000000 }


/-! ### Helper lemmas -/

/-- A leading segment stays a leading segment under right extension. -/
lemma isPre_append (p a b : List Char) (h : isPre p a = true) :
    isPre p (a ++ b) = true := by
  induction p generalizing a with
  | nil => simp [isPre]
  | cons c cs ih =>
    cases a with
    | nil => simp [isPre] at h
    | cons d ds =>
      simp only [isPre, Bool.and_eq_true] at h
      simp only [List.cons_append, isPre, Bool.and_eq_true]
      exact ⟨h.1, ih ds h.2⟩

/-- A substring of `a` is a substring of `a ++ b`. -/
lemma pyIn_append (n a b : List Char) (h : pyIn n a = true) :
    pyIn n (a ++ b) = true := by
  induction a with
  | nil =>
    cases n with
    | nil =>
      cases b with
      | nil => simp [pyIn, isPre]
      | cons x xs => simp [pyIn, isPre]
    | cons c cs => simp [pyIn, isPre] at h
  | cons d ds ih =>
    simp only [pyIn, Bool.or_eq_true] at h
    rw [List.cons_append]
    simp only [pyIn, Bool.or_eq_true]
    rcases h with h | h
    · exact Or.inl (by simpa using isPre_append n (d :: ds) b (by simpa using h))
    · exact Or.inr (ih h)

/-! ### Claim theorems -/

/-- Whenever the dollar pattern matches and its captured group parses,
the extracted price is the parsed value times 1,000,000 — with or
without `millones` — because the else branch's `(multiplier or 1)` is
the truthy 1000000. -/
lemma step1_always_multiplies (text g0 g1 : List Char) (v : ℚ)
    (h1 : searchDollar text = some (g0, g1))
    (h2 : parseVal (normNum g1) = some v) :
    extractPrice text = ⟨v * 1000000, Option.none⟩ := by
  have hs : step1 text = some ⟨v * 1000000, Option.none⟩ := by
    simp [step1, h1, h2]
  simp [extractPrice, hs]

/-- C1: the claim (and the spec's example `"$1.500.000"` → 1500000)
requires the ×1,000,000 multiplier only when `millones` occurs in the
matched text, but the code multiplies every first-pattern dollar price
by 1,000,000: on `"$1.500.000"`, whose match contains no `millones`,
the extractor computes 1500000 × 1000000, not 1500000. -/
theorem c1_dollar_price_code_bug :
    pyIn milChars (pyLower ("$1.500.000".toList)) = false ∧
    extractPrice ("$1.500.000".toList) = ⟨1500000 * 1000000, Option.none⟩ ∧
    (1500000 * 1000000 : ℚ) ≠ 1500000 := by
  refine ⟨by decide, ?_, by norm_num⟩
  exact step1_always_multiplies ("$1.500.000".toList) ("$1.500.000".toList)
    ("1.500.000".toList) 1500000 (by decide) (by decide)

/-- C7: when the dollar pattern produced no price and one of the two UF
patterns is the first to match and parse, the extractor sets
`precio_uf` to the parsed UF amount and `precio` to that amount times
the fixed rate 37000. -/
theorem c7_uf_price_confirmed (text g1 : List Char) (v : ℚ)
    (h1 : step1 text = Option.none)
    (h2 : searchUF text = some g1 ∧ parseVal (normNum g1) = some v ∨
          step2 text = Option.none ∧ searchNumUF text = some g1 ∧
            parseVal (normNum g1) = some v) :
    extractPrice text = ⟨v * 37000, some v⟩ := by
  rcases h2 with ⟨hs, hp⟩ | ⟨hs2, hs, hp⟩
  · have h2s : step2 text = some ⟨v * 37000, some v⟩ := by simp [step2, hs, hp]
    simp [extractPrice, h1, h2s]
  · have h3s : step3 text = some ⟨v * 37000, some v⟩ := by simp [step3, hs, hp]
    simp [extractPrice, h1, hs2, h3s]

/-- C7 witness: `"UF 3.500"` yields `precio_uf = 3500` and
`precio = 3500 × 37000 = 129500000`. -/
theorem c7_uf_price_witness :
    extractPrice ("UF 3.500".toList) = ⟨129500000, some 3500⟩ := by
  have h := c7_uf_price_confirmed ("UF 3.500".toList) ("3.500".toList) 3500
    (by decide) (Or.inl ⟨by decide, by decide⟩)
  rw [h, show (3500 : ℚ) * 37000 = 129500000 from by norm_num]

/-- C2 counterexample: with every attempt failing, the number of
executions is not 3 and `failed_scrapes` does not grow by exactly one,
refuting the claim at the zero-counter source. -/
theorem c2_backoff_counterexample :
    ¬ ((scrapeTaskAllFail [] srcZero).attempts = 3 ∧
       (scrapeTaskAllFail [] srcZero).source.failed_scrapes =
         srcZero.failed_scrapes + 1) := by decide

/-- C2 amended: an always-failing run executes the task body exactly 4
times (the initial dispatch plus `max_retries = 3` retries), the retry
countdowns are the increasing sequence 60, 120, 180 seconds, the
source ends in status `failed`, and `failed_scrapes` (like
`total_scrapes`) is incremented once per failing attempt — 4 times in
total, not once. -/
theorem c2_backoff_amended (err : List Char) (s : SourceState) :
    scrapeTaskAllFail err s =
      ⟨[60, 120, 180], 4,
        { s with
            status := .failed,
            total_scrapes := s.total_scrapes + 4,
            failed_scrapes := s.failed_scrapes + 4,
            last_error_message := some err }⟩ := rfl

/-- C6 counterexample: a title containing the word `departamento` (with
area above 500) is nevertheless classified `terreno` when a land
keyword also occurs, refuting the claim's universal corollary. -/
theorem c6_classify_counterexample :
    pyIn ("departamento".toList) (pyLower ("terreno con departamento".toList)) = true ∧
    (500 : ℚ) < 600 ∧
    determine_property_type ("terreno con departamento".toList) [] 600 ≠
      PropType.departamento := by
  exact ⟨by decide, by decide, by decide⟩

/-- C6 amended: classification scans the concatenated lower-cased
title+description against the ordered keyword groups land → apartment
→ prefab → house with first match winning; only when no keyword hits
does the area fallback apply (area > 500 → land, area < 80 →
apartment, else house); consequently a record whose title contains
`departamento` and whose text has no land keyword is classified
apartment regardless of area. -/
theorem c6_classify_amended :
    (∀ t d m, kwHit terrenoKws (classText t d) = true →
      determine_property_type t d m = PropType.terreno) ∧
    (∀ t d m, kwHit terrenoKws (classText t d) = false →
      kwHit deptoKws (classText t d) = true →
      determine_property_type t d m = PropType.departamento) ∧
    (∀ t d m, kwHit terrenoKws (classText t d) = false →
      kwHit deptoKws (classText t d) = false →
      kwHit prefabKws (classText t d) = true →
      determine_property_type t d m = PropType.casa_prefabricada) ∧
    (∀ t d m, kwHit terrenoKws (classText t d) = false →
      kwHit deptoKws (classText t d) = false →
      kwHit prefabKws (classText t d) = false →
      kwHit casaKws (classText t d) = true →
      determine_property_type t d m = PropType.casa) ∧
    (∀ t d m, kwHit terrenoKws (classText t d) = false →
      kwHit deptoKws (classText t d) = false →
      kwHit prefabKws (classText t d) = false →
      kwHit casaKws (classText t d) = false →
      ((500 < m → determine_property_type t d m = PropType.terreno) ∧
       (¬ 500 < m → m < 80 → determine_property_type t d m = PropType.departamento) ∧
       (¬ 500 < m → ¬ m < 80 → determine_property_type t d m = PropType.casa))) ∧
    (∀ t d m, pyIn ("departamento".toList) (pyLower t) = true →
      kwHit terrenoKws (classText t d) = false →
      determine_property_type t d m = PropType.departamento) := by
  refine ⟨?_, ?_, ?_, ?_, ?_, ?_⟩
  · intro t d m h1
    simp [determine_property_type, h1]
  · intro t d m h1 h2
    simp [determine_property_type, h1, h2]
  · intro t d m h1 h2 h3
    simp [determine_property_type, h1, h2, h3]
  · intro t d m h1 h2 h3 h4
    simp [determine_property_type, h1, h2, h3, h4]
  · intro t d m h1 h2 h3 h4
    refine ⟨?_, ?_, ?_⟩
    · intro hm
      simp [determine_property_type, h1, h2, h3, h4, hm]
    · intro hm1 hm2
      simp [determine_property_type, h1, h2, h3, h4, hm1, hm2]
    · intro hm1 hm2
      simp [determine_property_type, h1, h2, h3, h4, hm1, hm2]
  · intro t d m hdep h1
    have h2 : kwHit deptoKws (classText t d) = true := by
      have : pyIn ("departamento".toList) (classText t d) = true := by
        unfold classText
        exact pyIn_append _ _ _ hdep
      simp only [kwHit, deptoKws, List.any_cons, Bool.or_eq_true]
      exact Or.inl this
    simp [determine_property_type, h1, h2]

/-- C6 witness: a title starting with `Departamento` and area 600 is
classified apartment. -/
theorem c6_classify_witness :
    determine_property_type ("Departamento grande".toList) [] 600 =
      PropType.departamento :=
  c6_classify_amended.2.2.2.2.2 ("Departamento grande".toList) [] 600
    (by decide) (by decide)

/-- C9: the output of the HTML reducer never exceeds the character
budget, whatever the DOM rendering and summarization stages produce:
the final slice to `max_chars` bounds it. -/
theorem c9_reducer_budget (render summarize : List Char → List Char)
    (html : List Char) (maxChars : ℕ) :
    (smart_html_extraction render summarize html maxChars).length ≤ maxChars := by
  simp only [smart_html_extraction, List.length_take]
  omega


/-- Cleaning always yields a non-empty title: the empty or missing
title is defaulted to `'Sin título'`. -/
lemma cleanTitulo_truthy (v : PyVal) : pyTruthy (cleanTitulo v) = true := by
  cases v with
  | str s =>
    simp only [cleanTitulo]
    by_cases he : ((pyStrip s).take 500).isEmpty
    · rw [if_pos he]; decide
    · rw [if_neg he]
      simpa [pyTruthy] using he
  | num q => rfl
  | noneV => rfl
  | list l => rfl
  | absent => rfl

/-- The title of any cleaned record is truthy. -/
lemma clean_titulo_truthy (d : Rec) : pyTruthy (clean d).titulo = true :=
  cleanTitulo_truthy d.titulo

/-- C3: the code's rejection gate can never fire: cleaning defaults an
empty title to `'Sin título'` before the `precio <= 0 and not titulo`
check, so every cleaned record has a truthy title, and the record with
empty title and zero price is created (persisted), not dropped. -/
theorem c3_rejection_gate_dead :
    (∀ d : Rec, pyTruthy (clean d).titulo = true) ∧
    (scrapeRun (fun _ => []) ("X".toList) [rawNoTitleNoPrice] []).1 =
      { created := 1, updated := 0, failed := 0 } :=
  ⟨clean_titulo_truthy, by decide⟩

/-- Each iteration of the counting loop bumps exactly one counter. -/
lemma counterStep_sum (cnt : RunCounts) (x : Rec × RecOutcome) :
    (counterStep cnt x).created + (counterStep cnt x).updated +
      (counterStep cnt x).failed =
    cnt.created + cnt.updated + cnt.failed + 1 := by
  rcases x with ⟨r, o⟩
  cases o with
  | raised =>
    have hr : counterStep cnt (r, RecOutcome.raised) =
        { cnt with failed := cnt.failed + 1 } := rfl
    rw [hr]
    simp
    omega
  | stored b =>
    cases b <;> · simp only [counterStep]
                  split
                  · simp; omega
                  · simp; omega
  | storeFail =>
    simp only [counterStep]
    split
    · simp; omega
    · simp; omega

/-- Folding the counting loop adds the list length to the counter sum. -/
lemma foldl_counterStep_sum (xs : List (Rec × RecOutcome)) :
    ∀ cnt : RunCounts,
      (xs.foldl counterStep cnt).created + (xs.foldl counterStep cnt).updated +
        (xs.foldl counterStep cnt).failed =
      cnt.created + cnt.updated + cnt.failed + xs.length := by
  induction xs with
  | nil => intro cnt; simp
  | cons x rest ih =>
    intro cnt
    rw [List.foldl_cons]
    rw [ih (counterStep cnt x)]
    rw [counterStep_sum]
    simp only [List.length_cons]
    omega

/-- Each iteration of the store-backed loop bumps exactly one counter. -/
lemma processRec_sum (h : List Char → List Char) (site : List Char)
    (st : RunCounts × Tables) (r : Rec) :
    ((processRec h site st r).1).created + ((processRec h site st r).1).updated +
      ((processRec h site st r).1).failed =
    st.1.created + st.1.updated + st.1.failed + 1 := by
  rcases st with ⟨cnt, tbl⟩
  simp only [processRec]
  split
  · simp; omega
  · split
    · split
      · simp; omega
      · simp; omega
    · simp; omega

/-- Folding the store-backed loop adds the list length to the sum. -/
lemma foldl_processRec_sum (h : List Char → List Char) (site : List Char)
    (recs : List Rec) :
    ∀ st : RunCounts × Tables,
      ((recs.foldl (processRec h site) st).1).created +
        ((recs.foldl (processRec h site) st).1).updated +
        ((recs.foldl (processRec h site) st).1).failed =
      st.1.created + st.1.updated + st.1.failed + recs.length := by
  induction recs with
  | nil => intro st; simp
  | cons r rest ih =>
    intro st
    rw [List.foldl_cons, ih (processRec h site st r), processRec_sum]
    simp only [List.length_cons]
    omega

/-- C4: for every run, over any list of candidate records and any
persistence outcomes, the run counters satisfy
`created + updated + failed = found`: in the oracle-counted loop (which
also covers store failures and per-record exceptions) and in the
store-backed loop. -/
theorem c4_counts_partition :
    (∀ xs : List (Rec × RecOutcome),
      (scrapeCounters xs).created + (scrapeCounters xs).updated +
        (scrapeCounters xs).failed = xs.length) ∧
    (∀ (h : List Char → List Char) (site : List Char) (recs : List Rec)
        (t : Tables),
      ((scrapeRun h site recs t).1).created +
        ((scrapeRun h site recs t).1).updated +
        ((scrapeRun h site recs t).1).failed = recs.length) := by
  constructor
  · intro xs
    have := foldl_counterStep_sum xs {}
    simpa [scrapeCounters] using this
  · intro h site recs t
    have := foldl_processRec_sum h site recs ({}, t)
    simpa [scrapeRun] using this


/-- The code's title-duplicate boolean, characterised. -/
lemma dupA_eq_true_iff (titles : List (List Char)) (t : List Char) :
    dupA titles t = true ↔
      (t ≠ [] ∧ ∃ u ∈ titles, u ≠ [] ∧
        (pyIn t u = true ∨ pyIn u t = true ∨ u.take 30 = t.take 30)) := by
  simp only [dupA, Bool.and_eq_true, List.any_eq_true, Bool.or_eq_true,
    decide_eq_true_eq, Bool.not_eq_true', List.isEmpty_eq_false]
  constructor
  · rintro ⟨ht, u, hu, ⟨hune, -⟩, hd⟩
    refine ⟨ht, u, hu, hune, ?_⟩
    rcases hd with (h | h) | h
    · exact Or.inr (Or.inl h)
    · exact Or.inl h
    · exact Or.inr (Or.inr h)
  · rintro ⟨ht, u, hu, hune, h | h | h⟩
    · exact ⟨ht, u, hu, ⟨hune, ht⟩, Or.inl (Or.inr h)⟩
    · exact ⟨ht, u, hu, ⟨hune, ht⟩, Or.inl (Or.inl h)⟩
    · exact ⟨ht, u, hu, ⟨hune, ht⟩, Or.inr h⟩

/-- The code's price-duplicate boolean, characterised. -/
lemma dupB_eq_true_iff (prices : List ℚ) (pr : ℚ) :
    dupB prices pr = true ↔ (0 < pr ∧ pr ∈ prices) := by
  simp only [dupB, Bool.and_eq_true, List.any_eq_true, decide_eq_true_eq]
  constructor
  · rintro ⟨⟨x, hx, rfl⟩, hpos⟩
    exact ⟨hpos, hx⟩
  · rintro ⟨hpos, hmem⟩
    exact ⟨⟨pr, hmem, rfl⟩, hpos⟩

/-- The merge-loop discard condition coincides with the amended
duplicate predicate. -/
lemma code_cond_iff (titles : List (List Char)) (prices : List ℚ)
    (t : List Char) (pr : ℚ) :
    (dupA titles t || (!dupA titles t && dupB prices pr)) = true ↔
      dupAmend titles prices t pr := by
  unfold dupAmend
  simp only [Bool.or_eq_true, Bool.and_eq_true, Bool.not_eq_true']
  constructor
  · rintro (h | ⟨_, h2⟩)
    · exact Or.inl ((dupA_eq_true_iff _ _).mp h)
    · exact Or.inr ((dupB_eq_true_iff _ _).mp h2)
  · rintro (h | h)
    · exact Or.inl ((dupA_eq_true_iff _ _).mpr h)
    · by_cases ha : dupA titles t = true
      · exact Or.inl ha
      · refine Or.inr ⟨?_, (dupB_eq_true_iff _ _).mpr h⟩
        revert ha
        cases dupA titles t <;> simp

/-- Each merge iteration agrees with the amended specification step. -/
lemma mergeStep_eq_specStepAmend (st : MergeSt) (p : Rec) :
    mergeStep st p = specStepAmend st p := by
  unfold mergeStep specStepAmend
  by_cases hd : dupAmend st.2.1 st.2.2 (normTitle p) (pyNum p.precio)
  · rw [if_pos ((code_cond_iff _ _ _ _).mpr hd), if_pos hd]
  · rw [if_neg (fun hc => hd ((code_cond_iff _ _ _ _).mp hc)), if_neg hd]

/-- The whole folds agree. -/
lemma foldl_merge_eq (bs : List Rec) :
    ∀ st : MergeSt, bs.foldl mergeStep st = bs.foldl specStepAmend st := by
  induction bs with
  | nil => intro st; rfl
  | cons p rest ih =>
    intro st
    rw [List.foldl_cons, List.foldl_cons, mergeStep_eq_specStepAmend, ih]

/-- C5 counterexample: a heuristic record with an empty normalized
title — which is a substring of the kept LLM title, so the claim as
stated discards it — is in fact appended by the merge, diverging from
the claim's predicate. -/
theorem c5_merge_counterexample :
    pyIn (normTitle bsRecEmpty) (normTitle llmRecA) = true ∧
    hybridMergeRecords [llmRecA] [bsRecEmpty] ≠
      mergeSpecOrig [llmRecA] [bsRecEmpty] := by
  exact ⟨by decide, by decide⟩

/-- C5 amended: the merge starts from the LLM list and discards a
heuristic record iff (a) both its non-empty normalized title and some
kept record's non-empty normalized title are in a substring/contains/
30-character-prefix relation, or (b) its price is positive and already
among the kept prices; every kept record's title and price join the
comparison sets. In particular the spec's dedup example keeps exactly
the LLM record. -/
theorem c5_merge_amended :
    (∀ llm bs, hybridMergeRecords llm bs = mergeSpecAmend llm bs) ∧
    hybridMergeRecords [llmCasa] [bsCasa] = [llmCasa] := by
  constructor
  · intro llm bs
    unfold hybridMergeRecords mergeSpecAmend
    rw [foldl_merge_eq]
  · decide

/-- Replacing a row never changes which keys are present. -/
lemma lookupTbl_replace_isSome (k k2 : TKey) (r : Row) (t : Tables) :
    (lookupTbl k2 (replaceTbl k r t)).isSome = (lookupTbl k2 t).isSome := by
  induction t with
  | nil => rfl
  | cons kv rest ih =>
    rcases kv with ⟨a, b⟩
    show (lookupTbl k2 ((if a = k then (k, r) else (a, b)) :: replaceTbl k r rest)).isSome
        = (lookupTbl k2 ((a, b) :: rest)).isSome
    by_cases hak : a = k
    · rw [if_pos hak]
      by_cases hk2 : k = k2
      · rw [lookupTbl, lookupTbl, if_pos hk2, if_pos (hak.trans hk2)]
        rfl
      · rw [lookupTbl, lookupTbl, if_neg hk2, if_neg (fun e => hk2 (hak ▸ e))]
        exact ih
    · rw [if_neg hak, lookupTbl, lookupTbl]
      by_cases hk2 : a = k2
      · rw [if_pos hk2, if_pos hk2]
      · rw [if_neg hk2, if_neg hk2]
        exact ih

/-- After an upsert at `k`, the key `k` is present. -/
lemma keyPresent_upsert_self (k : TKey) (r : Row) (t : Tables) :
    keyPresent k (upsert k r t).2 := by
  unfold upsert
  cases hl : lookupTbl k t with
  | none => simp [keyPresent, lookupTbl]
  | some row0 => simp [keyPresent, lookupTbl_replace_isSome, hl]

/-- An upsert preserves every present key. -/
lemma keyPresent_upsert_mono (k k2 : TKey) (r : Row) (t : Tables)
    (h : keyPresent k2 t) : keyPresent k2 (upsert k r t).2 := by
  unfold upsert
  cases hl : lookupTbl k t with
  | none =>
    by_cases hk : k = k2
    · simp [keyPresent, lookupTbl, hk]
    · simpa [keyPresent, lookupTbl, hk] using h
  | some row0 =>
    simpa [keyPresent, lookupTbl_replace_isSome] using h

/-- Upserting a present key reports `created = false`. -/
lemma upsert_fst_false (k : TKey) (r : Row) (t : Tables)
    (h : keyPresent k t) : (upsert k r t).1 = false := by
  unfold upsert
  cases hl : lookupTbl k t with
  | none => rw [keyPresent, hl] at h; simp at h
  | some row0 => simp

/-- One loop iteration is exactly an upsert at the record's key (the
validation gate never fires and `create_or_update_property` always
returns an object). -/
lemma processRec_eq (h : List Char → List Char) (site : List Char)
    (cnt : RunCounts) (tbl : Tables) (r : Rec) :
    processRec h site (cnt, tbl) r =
      (if (upsert (recKey h site r) (recRow h site r) tbl).1
         then { cnt with created := cnt.created + 1 }
         else { cnt with updated := cnt.updated + 1 },
       (upsert (recKey h site r) (recRow h site r) tbl).2) := by
  simp only [processRec, create_or_update_property, recKey, recRow,
    clean_titulo_truthy, Bool.not_true, Bool.false_and, Bool.and_false,
    Bool.false_eq_true, if_false]
  split <;> rfl

/-- Present keys stay present across the whole loop. -/
lemma scrapeRun_go_mono (h : List Char → List Char) (site : List Char)
    (recs : List Rec) :
    ∀ (cnt : RunCounts) (tbl : Tables) (k : TKey), keyPresent k tbl →
      keyPresent k ((recs.foldl (processRec h site) (cnt, tbl)).2) := by
  induction recs with
  | nil => intro cnt tbl k hk; simpa using hk
  | cons r rest ih =>
    intro cnt tbl k hk
    rw [List.foldl_cons, processRec_eq]
    exact ih _ _ k (keyPresent_upsert_mono _ _ _ _ hk)

/-- After one loop pass, every processed record's key is present. -/
lemma scrapeRun_go_key (h : List Char → List Char) (site : List Char)
    (recs : List Rec) :
    ∀ (cnt : RunCounts) (tbl : Tables) (r : Rec), r ∈ recs →
      keyPresent (recKey h site r)
        ((recs.foldl (processRec h site) (cnt, tbl)).2) := by
  induction recs with
  | nil => intro cnt tbl r hr; cases hr
  | cons a as ih =>
    intro cnt tbl r hr
    rw [List.foldl_cons, processRec_eq]
    rcases List.mem_cons.mp hr with rfl | hr2
    · exact scrapeRun_go_mono h site as _ _ _ (keyPresent_upsert_self _ _ _)
    · exact ih _ _ r hr2

/-- When every record's key is already present, a loop pass only
updates: no creations, one update per record. -/
lemma scrapeRun_go_counts (h : List Char → List Char) (site : List Char)
    (recs : List Rec) :
    ∀ (cnt : RunCounts) (tbl : Tables),
      (∀ r ∈ recs, keyPresent (recKey h site r) tbl) →
      ((recs.foldl (processRec h site) (cnt, tbl)).1) =
        { cnt with updated := cnt.updated + recs.length } := by
  induction recs with
  | nil => intro cnt tbl _; simp
  | cons a as ih =>
    intro cnt tbl hall
    rw [List.foldl_cons, processRec_eq,
      upsert_fst_false _ _ _ (hall a (List.mem_cons_self a as))]
    simp only [Bool.false_eq_true, if_false]
    rw [ih _ _ (fun r hr =>
      keyPresent_upsert_mono _ _ _ _ (hall r (List.mem_cons_of_mem a hr)))]
    simp only [List.length_cons]
    congr 1
    omega

/-- C8: re-running the loop over the same records on the store the
first run produced creates nothing and updates every record: the
identity key (explicit code, or the 10-character digest of
title+price+commune) is derived deterministically, so the second pass
hits an existing row each time — `created = 0` and `updated = N`. -/
theorem c8_upsert_idempotent (h : List Char → List Char) (site : List Char)
    (recs : List Rec) (t0 : Tables) :
    ((scrapeRun h site recs ((scrapeRun h site recs t0).2)).1).created = 0 ∧
    ((scrapeRun h site recs ((scrapeRun h site recs t0).2)).1).updated =
      recs.length := by
  have hall : ∀ r ∈ recs, keyPresent (recKey h site r)
      ((scrapeRun h site recs t0).2) := by
    intro r hr
    exact scrapeRun_go_key h site recs {} t0 r hr
  have hc := scrapeRun_go_counts h site recs {} ((scrapeRun h site recs t0).2) hall
  unfold scrapeRun at hc ⊢
  rw [hc]
  simp


/-- Python truncation is the identity on integers. -/
lemma pyTrunc_intCast (k : ℤ) : pyTrunc (k : ℚ) = k := by
  unfold pyTrunc
  rw [Rat.num_intCast, Rat.den_intCast]
  simp

/-- Cleaning the title twice changes nothing when the once-cleaned
title is strip-stable. -/
lemma cleanTitulo_stable (v : PyVal)
    (hs : stripStable (cleanTitulo v) = true) :
    cleanTitulo (cleanTitulo v) = cleanTitulo v := by
  have hsin : cleanTitulo (PyVal.str sinTituloChars) = PyVal.str sinTituloChars := by
    decide
  cases v with
  | str s =>
    by_cases he : ((pyStrip s).take 500).isEmpty = true
    · have h1 : cleanTitulo (PyVal.str s) = PyVal.str sinTituloChars := by
        simp [cleanTitulo, he]
      rw [h1, hsin]
    · have h1 : cleanTitulo (PyVal.str s) = PyVal.str ((pyStrip s).take 500) := by
        simp [cleanTitulo, he]
      rw [h1] at hs ⊢
      have hstrip : pyStrip ((pyStrip s).take 500) = (pyStrip s).take 500 := by
        simpa [stripStable] using hs
      have hlen : ((pyStrip s).take 500).length ≤ 500 := List.length_take_le _ _
      simp [cleanTitulo, hstrip, List.take_of_length_le hlen, he]
  | num q => rw [show cleanTitulo (PyVal.num q) = PyVal.str sinTituloChars from rfl, hsin]
  | noneV => rw [show cleanTitulo PyVal.noneV = PyVal.str sinTituloChars from rfl, hsin]
  | list l => rw [show cleanTitulo (PyVal.list l) = PyVal.str sinTituloChars from rfl, hsin]
  | absent => rw [show cleanTitulo PyVal.absent = PyVal.str sinTituloChars from rfl, hsin]

/-- Cleaning the description twice changes nothing when strip-stable. -/
lemma cleanDescripcion_stable (v : PyVal)
    (hs : stripStable (cleanDescripcion v) = true) :
    cleanDescripcion (cleanDescripcion v) = cleanDescripcion v := by
  cases v with
  | str s =>
    have h1 : cleanDescripcion (PyVal.str s) =
        PyVal.str ((pyStrip s).take 1000) := rfl
    rw [h1] at hs ⊢
    have hstrip : pyStrip ((pyStrip s).take 1000) = (pyStrip s).take 1000 := by
      simpa [stripStable] using hs
    have hlen : ((pyStrip s).take 1000).length ≤ 1000 := List.length_take_le _ _
    simp [cleanDescripcion, hstrip, List.take_of_length_le hlen]
  | num q => rfl
  | noneV => rfl
  | list l => rfl
  | absent => rfl

/-- Cleaning a plain text field twice changes nothing when strip-stable. -/
lemma cleanText_stable (v : PyVal)
    (hs : stripStable (cleanText v) = true) :
    cleanText (cleanText v) = cleanText v := by
  cases v with
  | str s =>
    have h1 : cleanText (PyVal.str s) = PyVal.str ((pyStrip s).take 500) := rfl
    rw [h1] at hs ⊢
    have hstrip : pyStrip ((pyStrip s).take 500) = (pyStrip s).take 500 := by
      simpa [stripStable] using hs
    have hlen : ((pyStrip s).take 500).length ≤ 500 := List.length_take_le _ _
    simp [cleanText, hstrip, List.take_of_length_le hlen]
  | num q => rfl
  | noneV => rfl
  | list l => rfl
  | absent => rfl

/-- `cleanText` always yields a capped string. -/
lemma cleanText_shape (v : PyVal) :
    ∃ s, cleanText v = PyVal.str s ∧ s.length ≤ 500 := by
  cases v with
  | str s => exact ⟨_, rfl, List.length_take_le _ _⟩
  | num q => exact ⟨[], rfl, by simp⟩
  | noneV => exact ⟨[], rfl, by simp⟩
  | list l => exact ⟨[], rfl, by simp⟩
  | absent => exact ⟨[], rfl, by simp⟩

/-- Cleaning a defaulted text field (city/region) twice changes
nothing when the cleaned value is strip-stable and the default is a
well-formed constant. -/
lemma cleanTextD_stable (dflt : List Char) (v : PyVal)
    (hne : dflt ≠ []) (hlen : dflt.length ≤ 500) (hstr : pyStrip dflt = dflt)
    (hs : stripStable (cleanTextD dflt v) = true) :
    cleanTextD dflt (cleanTextD dflt v) = cleanTextD dflt v := by
  obtain ⟨s, hcs, hsl⟩ := cleanText_shape v
  by_cases hse : s.isEmpty = true
  · have h1 : cleanTextD dflt v = PyVal.str dflt := by
      simp [cleanTextD, hcs, hse]
    rw [h1]
    have hdfe : dflt.isEmpty = false := by
      simpa [List.isEmpty_eq_false] using hne
    simp [cleanTextD, cleanText, hstr, List.take_of_length_le hlen, hdfe]
  · have hse2 : s.isEmpty = false := by simpa using hse
    have h1 : cleanTextD dflt v = PyVal.str s := by
      simp [cleanTextD, hcs, hse2]
    rw [h1] at hs ⊢
    have hstrip : pyStrip s = s := by simpa [stripStable] using hs
    simp [cleanTextD, cleanText, hstrip, List.take_of_length_le hsl, hse2]

/-- Cleaning the price twice changes nothing. -/
lemma cleanPrecio_stable (v : PyVal) :
    cleanPrecio (cleanPrecio v) = cleanPrecio v := by
  cases v <;> rfl

/-- Cleaning the UF price twice changes nothing unless it cleaned to
exactly zero. -/
lemma cleanPrecioUf_stable (v : PyVal)
    (h : cleanPrecioUf v ≠ PyVal.num 0) :
    cleanPrecioUf (cleanPrecioUf v) = cleanPrecioUf v := by
  cases v with
  | str s =>
    by_cases he : s.isEmpty = true
    · simp [cleanPrecioUf, he]
    · simp only [cleanPrecioUf, he, Bool.false_eq_true, if_false] at h ⊢
      cases hp : parseVal (s.filter (fun c => c.isDigit || c == '.')) with
      | none => simp [hp, cleanPrecioUf]
      | some q =>
        rw [hp] at h
        have hq : q ≠ 0 := by
          intro e
          exact h (by rw [e])
        simp [hp, cleanPrecioUf, hq]
  | num q =>
    by_cases hz : q = 0
    · simp [cleanPrecioUf, hz]
    · simp [cleanPrecioUf, hz]
  | noneV => rfl
  | list l =>
    by_cases he : l.isEmpty = true
    · rfl
    · rfl
  | absent => rfl

/-- Cleaning a count field twice changes nothing. -/
lemma cleanNumF_stable (v : PyVal) :
    cleanNumF (cleanNumF v) = cleanNumF v := by
  cases v with
  | str s =>
    by_cases he : (s.filter Char.isDigit).isEmpty = true
    · simp [cleanNumF, he]
    · simp only [cleanNumF, he, Bool.false_eq_true, if_false]
      by_cases hz : (((s.filter Char.isDigit |> digitsToNat).getD 0 : ℕ) : ℚ) = 0
      · simp [hz]
      · simp only [hz, if_false]
        have h1 : ((((s.filter Char.isDigit |> digitsToNat).getD 0 : ℕ)) : ℚ) =
            ((((s.filter Char.isDigit |> digitsToNat).getD 0 : ℕ) : ℤ) : ℚ) := by
          push_cast
          rfl
        rw [h1, pyTrunc_intCast]
  | num q =>
    by_cases hz : q = 0
    · simp [cleanNumF, hz]
    · simp only [cleanNumF, hz, if_false]
      by_cases hz2 : ((pyTrunc q : ℤ) : ℚ) = 0
      · simp [hz2]
      · simp [hz2, pyTrunc_intCast]
  | noneV => rfl
  | list l => rfl
  | absent => rfl

/-- The operation type always cleans to `arriendo` or `venta`. -/
lemma cleanTipoOp_shape (v : PyVal) :
    cleanTipoOp v = PyVal.str arriendoChars ∨
      cleanTipoOp v = PyVal.str ventaChars := by
  have hb : ∀ b : Bool,
      (if b then PyVal.str arriendoChars else PyVal.str ventaChars) =
          PyVal.str arriendoChars ∨
      (if b then PyVal.str arriendoChars else PyVal.str ventaChars) =
          PyVal.str ventaChars := by
    intro b
    cases b
    · exact Or.inr rfl
    · exact Or.inl rfl
  exact hb _

/-- Cleaning the operation type twice changes nothing. -/
lemma cleanTipoOp_stable (v : PyVal) :
    cleanTipoOp (cleanTipoOp v) = cleanTipoOp v := by
  rcases cleanTipoOp_shape v with h | h <;> rw [h]
  · decide
  · decide

/-- Cleaning a list field twice changes nothing. -/
lemma cleanList_stable (v : PyVal) : cleanList (cleanList v) = cleanList v := by
  cases v <;> rfl

/-- The passthrough fields are stable. -/
lemma getOrNone_stable (v : PyVal) : getOrNone (getOrNone v) = getOrNone v := by
  cases v <;> rfl

/-- C10 counterexample: cleaning is not idempotent: the raw record
with `precio_uf = "0"` cleans to `precio_uf = 0.0`, but a second pass
turns that falsy value into `None`. -/
theorem c10_clean_counterexample :
    clean (clean rawUfZero) ≠ clean rawUfZero := by decide

/-- C10 amended: cleaning is idempotent on every record whose cleaned
form is stable: each trimmed-and-capped text field does not end in
whitespace exposed by the length cap, and `precio_uf` did not clean to
exactly 0. -/
theorem c10_clean_amended (d : Rec) (h : recStable (clean d) = true) :
    clean (clean d) = clean d := by
  simp only [recStable, Bool.and_eq_true, and_assoc] at h
  obtain ⟨h1, h2, h3, h4, h5, h6, h7, h8, h9, h10, h11, h12, h13⟩ := h
  have huf : cleanPrecioUf d.precio_uf ≠ PyVal.num 0 := by simpa using h13
  simp only [clean, Rec.mk.injEq]
  exact ⟨cleanTitulo_stable d.titulo h1,
    cleanDescripcion_stable d.descripcion h2,
    cleanPrecio_stable d.precio,
    cleanPrecioUf_stable d.precio_uf huf,
    cleanNumF_stable d.metros_cuadrados,
    cleanNumF_stable d.metros_terreno,
    cleanNumF_stable d.dormitorios,
    cleanNumF_stable d.banos,
    cleanNumF_stable d.estacionamientos,
    cleanText_stable d.direccion h3,
    cleanText_stable d.comuna h4,
    cleanTextD_stable santiagoChars d.ciudad (by decide) (by decide) (by decide) h5,
    cleanTextD_stable metropolitanaChars d.region (by decide) (by decide) (by decide) h6,
    cleanText_stable d.codigo_propiedad h7,
    cleanText_stable d.nombre_contacto h8,
    cleanText_stable d.telefono_contacto h9,
    cleanText_stable d.email_contacto h10,
    cleanText_stable d.inmobiliaria h11,
    cleanText_stable d.url_propiedad h12,
    cleanTipoOp_stable d.tipo_operacion,
    cleanList_stable d.amenidades,
    cleanList_stable d.imagenes_urls,
    getOrNone_stable d.ano_construccion,
    getOrNone_stable d.piso,
    getOrNone_stable d.gastos_comunes,
    getOrNone_stable d.contribuciones⟩

/-- C10 witness: the empty raw record satisfies the stability
hypotheses and cleaning it is idempotent. -/
theorem c10_clean_witness :
    recStable (clean rawEmpty) = true ∧
      clean (clean rawEmpty) = clean rawEmpty :=
  ⟨by decide, c10_clean_amended rawEmpty (by decide)⟩

end Inmobiscrap
